import Mathlib

/-!
# Verification of the parsec interactive file browser core

Shallow embedding of the navigation-and-summarization engine of the
parsec terminal file browser: the directory walker and file classifier
(package utils), the file-list and summary pane models (package ui),
and the main application model with its update function (main.go).

Go machine integers are modelled as Lean Int (no arithmetic here comes
near overflow); fallible filesystem operations are oracles passed in an
environment record (Env); the external collaborators (bubbletea runtime,
lipgloss rendering, the sahilm fuzzy ranker, the core summarizer whose
source is not part of the verified surface) are likewise oracle fields
of Env, so every theorem quantifies over their behavior unless a claim
pins a concrete instance.
-/

/-- utils.FileInfo: basic information about a discovered file. -/
structure FileInfo where
  Path : String
  Name : String
  Extension : String
  IsDir : Bool
deriving Repr, DecidableEq, Inhabited

/-- One immediate child of a directory, as returned by the os.ReadDir oracle:
the entry name and whether it is a directory. -/
structure DirEntry where
  name : String
  isDir : Bool
deriving Repr, DecidableEq, Inhabited

/-- core.FileSummary: the result record of summarizing one file.  The core
package source is outside the verified surface; the field set is taken from
its uses in ui (summary pane) and main. -/
structure FileSummary where
  Path : String := ""
  Language : String := ""
  LineCount : Int := 0
  FunctionCount : Int := 0
  FileSize : Int := 0
  Error : String := ""
  IsExecutable : Bool := false
  ExecutableHelp : String := ""
  IsRendered : Bool := false
  RenderedContent : String := ""
  Content : List String := []
  Headers : List String := []
  ConfigKeys : List String := []
  Functions : List String := []
  Imports : List String := []
  Types : List String := []
  Structs : List String := []
  Links : List String := []
deriving Repr, DecidableEq, Inhabited

/-- Oracle environment: the runtime platform, the filesystem, the Go path
library, and the external collaborators (fuzzy ranker, summary formatting
via lipgloss, the core summarizer). -/
structure Env where
  /-- runtime.GOOS -/
  goos : String
  /-- os.Stat restricted to the permission-mode bits: none models a stat
  failure, some m the low mode bits of the file. -/
  stat : String → Option Nat
  /-- filepath.Join of two components -/
  join : String → String → String
  /-- filepath.Dir -/
  dirOf : String → String
  /-- filepath.Rel basepath targpath (error result unused by the claims) -/
  relOf : String → String → String
  /-- fuzzy.Find: query and candidate strings to the ranked matched strings,
  best match first (external ranker treated as a black box). -/
  ranker : String → List String → List String
  /-- SummaryModel.formatSummaryForDisplay: pane width and summary to the
  rendered text (lipgloss-styled rendering, cosmetic, treated as a black box). -/
  formatSummary : Int → FileSummary → String
  /-- core.Summarizer.SummarizeFile (core package outside the verified surface). -/
  summarize : String → FileSummary

/- ## Go string-library primitives (strings.ToLower, strings.HasPrefix),
defined over the character list so that concrete evaluation reduces in the
kernel. -/

/-- strings.ToLower (ASCII case mapping suffices for every string the
program compares: extensions and fixed name lists). -/
def lowerStr (s : String) : String :=
  String.mk (s.data.map Char.toLower)

/-- strings.HasPrefix. -/
def strStartsWith (s p : String) : Bool :=
  p.data.isPrefixOf s.data

/- ## utils: extension handling and classification -/

/-- Helper for pathExt: walk the reversed character list of the path,
accumulating the characters that follow the last dot of the final
path element.  Mirrors Go filepath.Ext: the suffix beginning at the
final dot in the final separator-delimited element, empty if none. -/
def pathExtAux (goos : String) : List Char → List Char → String
  | _, [] => ""
  | acc, c :: rest =>
    if c = '/' ∨ (goos = "windows" ∧ c = '\\') then ""
    else if c = '.' then String.mk ('.' :: acc)
    else pathExtAux goos (c :: acc) rest

/-- filepath.Ext, parameterized by runtime.GOOS because the set of path
separators differs between Windows and POSIX platforms. -/
def pathExt (goos : String) (path : String) : String :=
  pathExtAux goos [] path.data.reverse

/-- utils.SupportedExtensions: extensions supported for summarization. -/
def SupportedExtensions : List String :=
  [".go", ".py", ".rs", ".js", ".ts", ".jsx", ".tsx", ".java", ".c", ".cpp",
   ".h", ".hpp", ".cs", ".php", ".rb", ".swift", ".kt", ".scala",
   ".md", ".markdown", ".txt", ".rst",
   ".json", ".yaml", ".yml", ".toml", ".ini", ".cfg", ".conf", ".env",
   ".properties",
   ".xml", ".csv", ".log",
   ".sh", ".bash", ".zsh", ".fish", ".ps1", ".bat", ".cmd"]

/-- utils.IsSourceFile: the lower-cased extension is supported. -/
def IsSourceFile (goos : String) (filename : String) : Bool :=
  SupportedExtensions.contains (lowerStr (pathExt goos filename))

/-- The Windows executable extensions consulted by utils.IsExecutableFile. -/
def winExeExts : List String := [".exe", ".com", ".bat", ".cmd", ".ps1", ".msi"]

/-- utils.IsExecutableFile: on Windows the lower-cased extension must be one
of winExeExts; on other platforms the file must stat successfully and have
some execute permission bit set. -/
def IsExecutableFile (env : Env) (filePath : String) : Bool :=
  if env.goos = "windows" then
    winExeExts.contains (lowerStr (pathExt env.goos filePath))
  else
    match env.stat filePath with
    | none => false
    | some mode => (mode &&& 0o111) != 0

/- ## utils.Walker.ListDirectory -/

/-- The deny-list of directory names skipped by the walker. -/
def skipDirs : List String := ["node_modules", "vendor", "target", "build", "dist", ".git"]

/-- The synthetic parent-navigation entry prepended when not listing the base. -/
def parentInfo : FileInfo := { Path := "..", Name := "..", Extension := "", IsDir := true }

/-- The FileInfo built for one directory child kept by the walker. -/
def mkChildInfo (goos : String) (e : DirEntry) : FileInfo :=
  { Path := e.name, Name := e.name, Extension := lowerStr (pathExt goos e.name), IsDir := e.isDir }

/-- A child survives the walker filter: its name does not start with the
hidden marker and, when a directory, its name is not on the deny-list. -/
def keepEntry (e : DirEntry) : Bool :=
  !(strStartsWith e.name ".") && !(e.isDir && skipDirs.contains e.name)

/-- utils.Walker.ListDirectory.  The Walker struct only carries basePath,
passed here directly; readDir is the os.ReadDir oracle for the filesystem.
On a read error for the directory itself the Go code returns the (empty)
accumulated slice together with the error; the Except error case models
that pair. -/
def ListDirectory (goos basePath : String)
    (readDir : String → Except String (List DirEntry)) (dirPath : String) :
    Except String (List FileInfo) :=
  match readDir dirPath with
  | .error e => .error e
  | .ok entries =>
    let init : List FileInfo := if dirPath ≠ basePath then [parentInfo] else []
    .ok (init ++ entries.filterMap (fun e =>
      if strStartsWith e.name "." then none
      else if e.isDir && skipDirs.contains e.name then none
      else some (mkChildInfo goos e)))

/-- main.LoadFilesMsg payload of loadFilesCmd: the command runs
ListDirectory and degrades a failure to the empty list. -/
def runLoadFilesCmd (goos basePath : String)
    (readDir : String → Except String (List DirEntry)) (dirPath : String) :
    List FileInfo :=
  match ListDirectory goos basePath readDir dirPath with
  | .ok files => files
  | .error _ => []

example : pathExt "linux" "a.tar.gz" = ".gz" := by decide
example : pathExt "linux" "Makefile" = "" := by decide
example : pathExt "linux" "dir.v2/file" = "" := by decide
example : IsSourceFile "linux" "main.GO" = true := by decide
example : keepEntry { name := ".git", isDir := true } = false := by decide
example : keepEntry { name := "node_modules", isDir := false } = true := by decide

/- ## bubbletea key messages -/

/-- The bubbletea key messages the program distinguishes.  A KeyMsg carries
a key type and, for rune keys, the runes; the search branch switches on the
type while browsing mode switches on the rendered key string. -/
inductive Key where
  | escape
  | enter
  | backspace
  | up
  | down
  | home
  | keyEnd
  | pgup
  | pgdown
  | tab
  | ctrlC
  | char (c : Char)
deriving Repr, DecidableEq

/-- tea.KeyMsg.String rendering of each key (bubbletea key names). -/
def Key.str : Key → String
  | .escape => "esc"
  | .enter => "enter"
  | .backspace => "backspace"
  | .up => "up"
  | .down => "down"
  | .home => "home"
  | .keyEnd => "end"
  | .pgup => "pgup"
  | .pgdown => "pgdown"
  | .tab => "tab"
  | .ctrlC => "ctrl+c"
  | .char c => String.mk [c]

/-- The printable-ASCII test of the search branch:
len(s) == 1 && s >= " " && s <= "~" on the rendered key string.  For a
byte-length-1 string, Go byte-wise string comparison against the one-byte
bounds is exactly a comparison of the single code point, and every code
point in 32..126 is one byte; longer or non-ASCII renderings fail the
length test.  The two formulations agree on every string. -/
def goPrintable (s : String) : Bool :=
  match s.data with
  | [c] => 32 ≤ c.toNat && c.toNat ≤ 126
  | _ => false

/- ## ui.FileListModel -/

/-- ui.FileListModel: file navigation state of the left pane (the two
lipgloss style fields are constant cosmetic data and are omitted). -/
structure FileListModel where
  files : List FileInfo
  cursor : Int
  selected : String
  width : Int
  height : Int
  showDirs : Bool
deriving Repr, DecidableEq

/-- ui.NewFileListModel. -/
def NewFileListModel : FileListModel :=
  { files := [], cursor := 0, selected := "", width := 0, height := 0, showDirs := true }

/-- ui.FileListModel.SetFiles: store the list and re-clamp the cursor. -/
def FileListModel.SetFiles (m : FileListModel) (files : List FileInfo) : FileListModel :=
  let c1 := if 0 < files.length ∧ (files.length : Int) ≤ m.cursor
            then (files.length : Int) - 1 else m.cursor
  let c2 := if c1 < 0 then 0 else c1
  { m with files := files, cursor := c2 }

/-- ui.FileListModel.GetSelectedFile, with the out-of-bounds slice access made
explicit: the outer none models the Go runtime panic that a negative cursor
on a non-empty list would trigger (m.files[m.cursor] with m.cursor < 0); the
inner Option is the nil-or-pointer result of the Go function. -/
def FileListModel.GetSelectedFileP (m : FileListModel) : Option (Option FileInfo) :=
  if m.files.length = 0 ∨ (m.files.length : Int) ≤ m.cursor then some none
  else if 0 ≤ m.cursor then (m.files.get? m.cursor.toNat).map some
  else none

/-- ui.FileListModel.GetSelectedFile as the total function used by the main
model update: identical to GetSelectedFileP on every state whose cursor is
non-negative or whose list is empty (the only states the program constructs,
see the reachability invariant below). -/
def FileListModel.getSelectedFile (m : FileListModel) : Option FileInfo :=
  if m.files.length = 0 ∨ (m.files.length : Int) ≤ m.cursor then none
  else m.files.get? m.cursor.toNat

/-- ui.FileListModel.SetDimensions. -/
def FileListModel.SetDimensions (m : FileListModel) (width height : Int) : FileListModel :=
  { m with width := width, height := height }

/-- The cursor move performed by each navigation case of
ui.FileListModel.Update: set the cursor, then record the newly selected
path when a file is selected. -/
def FileListModel.cursorTo (m : FileListModel) (c : Int) : FileListModel :=
  let m' := { m with cursor := c }
  match m'.getSelectedFile with
  | some f => { m' with selected := f.Path }
  | none => m'

/-- ui.FileListModel.Update: keyboard dispatch on the rendered key string
(the Go function also returns a command, always nil). -/
def FileListModel.update (m : FileListModel) (k : Key) : FileListModel :=
  let s := k.str
  if s = "up" ∨ s = "k" then m.cursorTo (max 0 (m.cursor - 1))
  else if s = "down" ∨ s = "j" then m.cursorTo (min ((m.files.length : Int) - 1) (m.cursor + 1))
  else if s = "home" then m.cursorTo 0
  else if s = "end" then m.cursorTo ((m.files.length : Int) - 1)
  else if s = "pageup" then m.cursorTo (max 0 (m.cursor - 10))
  else if s = "pagedown" then m.cursorTo (min ((m.files.length : Int) - 1) (m.cursor + 10))
  else if s = "t" then { m with showDirs := !m.showDirs }
  else m

/- ## ui.SummaryModel -/

/-- ui.SummaryModel: the right pane summary display (lipgloss style fields
omitted as constant cosmetic data). -/
structure SummaryModel where
  summary : Option FileSummary
  content : String
  width : Int
  height : Int
  scrollPos : Int
  loadingText : String
  isLoading : Bool
deriving Repr, DecidableEq

/-- ui.NewSummaryModel. -/
def NewSummaryModel : SummaryModel :=
  { summary := none, content := "Select a file to view its summary",
    width := 0, height := 0, scrollPos := 0,
    loadingText := "Loading...", isLoading := false }

/-- The height available for content lines; Scroll, View and GetScrollInfo
all compute it as height - 4, floored at 1. -/
def SummaryModel.availHeight (m : SummaryModel) : Int :=
  let a := m.height - 4
  if a < 1 then 1 else a

/-- strings.Split on a single-character separator, over the character list
(one part more than the number of separator occurrences, like Go). -/
def splitOnChar (sep : Char) : List Char → List (List Char)
  | [] => [[]]
  | c :: rest =>
    let r := splitOnChar sep rest
    if c = sep then [] :: r
    else
      match r with
      | [] => [[c]]
      | h :: t => (c :: h) :: t

/-- The number of lines of the current content, len(strings.Split(content, newline)). -/
def SummaryModel.totalLines (m : SummaryModel) : Int :=
  ((splitOnChar '\n' m.content.data).length : Int)

/-- The maximal scroll position computed inside Scroll and GetScrollInfo. -/
def SummaryModel.maxScroll (m : SummaryModel) : Int :=
  if m.totalLines > m.availHeight then m.totalLines - m.availHeight else 0

/-- ui.SummaryModel.SetSummary: store the summary, stop loading, reset the
scroll position, and render the content (formatSummaryForDisplay is the
formatting oracle of Env). -/
def SummaryModel.SetSummary (env : Env) (m : SummaryModel) (summary : Option FileSummary) :
    SummaryModel :=
  let m1 := { m with summary := summary, isLoading := false, scrollPos := 0 }
  match summary with
  | none => { m1 with content := "No file selected" }
  | some s => { m1 with content := env.formatSummary m.width s }

/-- ui.SummaryModel.SetLoading: set the loading flag; when loading, replace
the content with the loading text (the scroll position is not touched). -/
def SummaryModel.SetLoading (m : SummaryModel) (loading : Bool) : SummaryModel :=
  let m1 := { m with isLoading := loading }
  if loading then { m1 with content := m1.loadingText } else m1

/-- ui.SummaryModel.SetContent: set custom content, clearing the summary and
resetting the scroll position. -/
def SummaryModel.SetContent (m : SummaryModel) (content : String) : SummaryModel :=
  { m with summary := none, isLoading := false, scrollPos := 0, content := content }

/-- ui.SummaryModel.SetDimensions. -/
def SummaryModel.SetDimensions (m : SummaryModel) (width height : Int) : SummaryModel :=
  { m with width := width, height := height }

/-- ui.SummaryModel.Scroll: move the scroll position by delta, clamped below
by 0 and above by the maximal scroll for the current content and height. -/
def SummaryModel.Scroll (m : SummaryModel) (delta : Int) : SummaryModel :=
  let np1 := m.scrollPos + delta
  let np2 := if np1 < 0 then 0 else np1
  let np3 := if np2 > m.maxScroll then m.maxScroll else np2
  { m with scrollPos := np3 }

example : (NewFileListModel.SetFiles [parentInfo]).cursor = 0 := by decide
example : goPrintable (Key.char 'q').str = true := by decide
example : goPrintable Key.ctrlC.str = false := by decide

/- ## main: application model -/

/-- main.SummaryMsg: an asynchronous summarization result, tagged with the
relative path that was summarized and the path as selected in the file list. -/
structure SummaryMsg where
  summary : FileSummary
  path : String
  selectedPath : String
deriving Repr, DecidableEq

/-- The messages processed by main.model.Update. -/
inductive Msg where
  | windowSize (width height : Int)
  | loadFiles (files : List FileInfo)
  | summaryMsg (s : SummaryMsg)
  | dirPreview (dirName content : String)
  | key (k : Key)
deriving Repr

/-- The commands main.model.Update can issue back to the runtime.  An empty
command list models a nil tea.Cmd. -/
inductive Cmd where
  | quit
  | loadFiles (dirPath : String)
  | summarize (filePath selectedPath : String)
  | dirPreview (dirName : String)
deriving Repr, DecidableEq

/-- main.model: the application state (summarizer and walker pointers carry
no mutable state beyond basePath and are subsumed by basePath/Env). -/
structure Model where
  fileListModel : FileListModel
  summaryModel : SummaryModel
  selectedPath : String
  width : Int
  height : Int
  basePath : String
  currentDir : String
  searchMode : Bool
  searchQuery : String
  allFiles : List FileInfo
  filteredFiles : List FileInfo
deriving Repr

/-- main.model.fuzzyFilter: empty query returns the list unchanged; otherwise
run the external ranker on the path strings and map each ranked match string
back to the first file with that path. -/
def Model.fuzzyFilter (env : Env) (files : List FileInfo) (query : String) :
    List FileInfo :=
  if query = "" then files
  else
    let filePaths := files.map (·.Path)
    let ranked := env.ranker query filePaths
    ranked.filterMap (fun s => files.find? (fun f => f.Path == s))

/-- main.model.sizeComponents. -/
def Model.sizeComponents (m : Model) : Model :=
  if m.width ≤ 0 ∨ m.height ≤ 0 then m
  else
    let availableWidth := m.width
    let availableHeight := m.height - 1 - 1
    let paneWidth := availableWidth / 2 - 2
    let paneHeight := availableHeight - 2
    let paneWidth := if paneWidth < 10 then 10 else paneWidth
    let paneHeight := if paneHeight < 5 then 5 else paneHeight
    { m with fileListModel := m.fileListModel.SetDimensions paneWidth paneHeight,
             summaryModel := m.summaryModel.SetDimensions paneWidth paneHeight }

/-- main.model.handleFileSelection: directory entries get a synchronous
parent message or an asynchronous preview command; summarizable or
executable files start a loading indicator and an asynchronous
summarization; everything else gets a synchronous unsupported message. -/
def Model.handleFileSelection (env : Env) (m : Model) (selected : Option FileInfo) :
    Model × List Cmd :=
  match selected with
  | none => ({ m with summaryModel := m.summaryModel.SetSummary env none }, [])
  | some sel =>
    if sel.IsDir then
      if sel.Path = ".." then
        let parentPath := env.dirOf m.currentDir
        let relParentPath := env.relOf m.basePath parentPath
        let relParentPath := if relParentPath = "." then "/" else "/" ++ relParentPath
        let sm := (m.summaryModel.SetSummary env none).SetContent
          ("📁 Parent Directory\n\nPath: " ++ relParentPath ++
           "\n\nPress Enter to navigate up to this directory.")
        ({ m with summaryModel := sm }, [])
      else
        (m, [Cmd.dirPreview sel.Path])
    else
      let fullPath := env.join m.currentDir sel.Path
      if IsSourceFile env.goos sel.Path || IsExecutableFile env fullPath then
        let sm := m.summaryModel.SetLoading true
        let relPath := env.relOf m.basePath fullPath
        ({ m with summaryModel := sm }, [Cmd.summarize relPath sel.Path])
      else
        let sm := (m.summaryModel.SetSummary env none).SetContent
          ("File: " ++ sel.Path ++ "\n\nThis file type is not supported for summarization.")
        ({ m with summaryModel := sm }, [])

/-- The search-mode branch of main.model.Update for key messages: Escape,
Enter and Backspace are matched on the key type, anything else appends its
rendered string to the query when it is a single printable ASCII byte. -/
def Model.searchKey (env : Env) (m : Model) (k : Key) : Model × List Cmd :=
  match k with
  | .escape =>
    ({ m with searchMode := false, searchQuery := "",
              fileListModel := m.fileListModel.SetFiles m.allFiles }, [])
  | .enter => ({ m with searchMode := false }, [])
  | .backspace =>
    if m.searchQuery.length > 0 then
      let q := m.searchQuery.dropRight 1
      if q = "" then
        ({ m with searchQuery := q, filteredFiles := m.allFiles,
                  fileListModel := m.fileListModel.SetFiles m.allFiles }, [])
      else
        let ff := Model.fuzzyFilter env m.allFiles q
        ({ m with searchQuery := q, filteredFiles := ff,
                  fileListModel := m.fileListModel.SetFiles ff }, [])
    else (m, [])
  | k =>
    if goPrintable k.str then
      let q := m.searchQuery ++ k.str
      let ff := Model.fuzzyFilter env m.allFiles q
      ({ m with searchQuery := q, filteredFiles := ff,
                fileListModel := m.fileListModel.SetFiles ff }, [])
    else (m, [])

/-- The browsing-mode branch of main.model.Update for key messages,
dispatching on the rendered key string exactly as the Go switch does; the
default case forwards to the file-list component and then runs the
selection-change protocol. -/
def Model.browseKey (env : Env) (m : Model) (k : Key) : Model × List Cmd :=
  let s := k.str
  if s = "ctrl+c" ∨ s = "q" then (m, [Cmd.quit])
  else if s = "/" then ({ m with searchMode := true, searchQuery := "" }, [])
  else if s = "r" then (m, [Cmd.loadFiles m.currentDir])
  else if s = "pgup" then ({ m with summaryModel := m.summaryModel.Scroll (-5) }, [])
  else if s = "pgdown" then ({ m with summaryModel := m.summaryModel.Scroll 5 }, [])
  else if s = "enter" then
    match m.fileListModel.getSelectedFile with
    | some sel =>
      if sel.IsDir then
        let newDir := if sel.Path = ".." then env.dirOf m.currentDir
                      else env.join m.currentDir sel.Path
        ({ m with currentDir := newDir }, [Cmd.loadFiles newDir])
      else (m, [])
    | none => (m, [])
  else
    let m1 := { m with fileListModel := m.fileListModel.update k }
    match m1.fileListModel.getSelectedFile with
    | some sel =>
      if sel.Path ≠ m1.selectedPath then
        Model.handleFileSelection env { m1 with selectedPath := sel.Path } (some sel)
      else (m1, [])
    | none => (m1, [])

/-- main.model.Update. -/
def Model.update (env : Env) (m : Model) (msg : Msg) : Model × List Cmd :=
  match msg with
  | .windowSize w h => (Model.sizeComponents { m with width := w, height := h }, [])
  | .loadFiles files =>
    let m1 := { m with allFiles := files }
    let m2 :=
      if m1.searchMode ∧ m1.searchQuery ≠ "" then
        let ff := Model.fuzzyFilter env m1.allFiles m1.searchQuery
        { m1 with filteredFiles := ff, fileListModel := m1.fileListModel.SetFiles ff }
      else
        { m1 with filteredFiles := m1.allFiles,
                  fileListModel := m1.fileListModel.SetFiles m1.allFiles }
    (match m2.fileListModel.getSelectedFile with
     | some sel =>
       if sel.Path ≠ m2.selectedPath then
         Model.handleFileSelection env { m2 with selectedPath := sel.Path } (some sel)
       else (m2, [])
     | none => (m2, []))
  | .summaryMsg s =>
    if s.selectedPath = m.selectedPath then
      ({ m with summaryModel := m.summaryModel.SetSummary env (some s.summary) }, [])
    else (m, [])
  | .dirPreview dirName content =>
    (match m.fileListModel.getSelectedFile with
     | some sel =>
       if sel.Path = dirName then
         ({ m with summaryModel := (m.summaryModel.SetSummary env none).SetContent content }, [])
       else (m, [])
     | none => (m, []))
  | .key k =>
    if m.searchMode then Model.searchKey env m k
    else Model.browseKey env m k

/-- main.summarizeFileCmd: the produced message carries the summarizer
result tagged with both the relative file path and the selected path. -/
def runSummarizeFileCmd (env : Env) (filePath selectedPath : String) : Msg :=
  .summaryMsg { summary := env.summarize filePath, path := filePath, selectedPath := selectedPath }

/- ## Concrete fixtures used by counterexamples and witnesses -/

/-- Boolean subsequence test on character lists (is q a subsequence of p). -/
def isSubseqChars : List Char → List Char → Bool
  | [], _ => true
  | _ :: _, [] => false
  | a :: as, b :: bs => if a = b then isSubseqChars as bs else isSubseqChars (a :: as) bs

/-- A concrete relevance ranker satisfying the spec description of the
external fuzzy collaborator (rank paths by best-effort subsequence match
against the query, best match first): exact matches rank above proper
subsequence matches.  The real sahilm ranker orders the same way on the
inputs used below, since an exact match scores strictly higher than a
scattered subsequence match. -/
def rankerT (q : String) (paths : List String) : List String :=
  (paths.filter (fun p => p == q)) ++
  (paths.filter (fun p => p != q && isSubseqChars q.data p.data))

/-- A concrete environment: POSIX platform, one executable file named tool
with mode 755, simple path oracles. -/
def envT : Env :=
  { goos := "linux"
    stat := fun p => if p = "tool" then some 0o755 else none
    join := fun a b => a ++ "/" ++ b
    dirOf := fun _ => "/"
    relOf := fun _ p => p
    ranker := rankerT
    formatSummary := fun _ s => s.Path
    summarize := fun p => { Path := p } }

/-- A plain (non-directory) file entry with the given name. -/
def nf (n : String) : FileInfo :=
  { Path := n, Name := n, Extension := lowerStr (pathExt "linux" n), IsDir := false }

/-- Twelve files, enough for a page-movement counterexample. -/
def filesC8 : List FileInfo :=
  [nf "f0", nf "f1", nf "f2", nf "f3", nf "f4", nf "f5",
   nf "f6", nf "f7", nf "f8", nf "f9", nf "f10", nf "f11"]

/-- A browsing-mode model whose cursor sits on the last of twelve files. -/
def mC8 : Model :=
  { fileListModel :=
      { files := filesC8, cursor := 11, selected := "f11",
        width := 0, height := 0, showDirs := true }
    summaryModel := NewSummaryModel
    selectedPath := "f11", width := 80, height := 24
    basePath := "/b", currentDir := "/b"
    searchMode := false, searchQuery := ""
    allFiles := filesC8, filteredFiles := filesC8 }

/-- A search-mode model with a two-character query. -/
def mSearch : Model :=
  { fileListModel :=
      { files := [nf "abc"], cursor := 0, selected := "abc",
        width := 0, height := 0, showDirs := true }
    summaryModel := NewSummaryModel
    selectedPath := "abc", width := 80, height := 24
    basePath := "/b", currentDir := "/b"
    searchMode := true, searchQuery := "ab"
    allFiles := [nf "abc", nf "bc"], filteredFiles := [nf "abc"] }

/-- The scroll-window bound the specification asserts. -/
def scrollInRange (m : SummaryModel) : Prop :=
  0 ≤ m.scrollPos ∧ m.scrollPos ≤ m.maxScroll

/-- Three lines of content. -/
def c6content : String := "a\nb\nc"

/-- A summary pane sized to one visible line, holding three lines of
content, scrolled to the bottom (scroll position 2 = maxScroll). -/
def mC6base : SummaryModel :=
  ((NewSummaryModel.SetDimensions 20 5).SetContent c6content).Scroll 2

/-- Two file entries whose paths overlap as subsequences. -/
def fAbc : FileInfo := nf "abc"
/-- Companion entry to fAbc. -/
def fBc : FileInfo := nf "bc"

example : mC6base.scrollPos = 2 := by decide
example : Model.fuzzyFilter envT [fAbc, fBc] "bc" = [fBc, fAbc] := by decide

/-- The file-list states the program can construct: the initial model and
anything reachable from one through the public mutators (SetFiles, the key
dispatch, SetDimensions). -/
inductive FLReachable : FileListModel → Prop where
  | init : FLReachable NewFileListModel
  | setFiles (m : FileListModel) (fs : List FileInfo) :
      FLReachable m → FLReachable (m.SetFiles fs)
  | key (m : FileListModel) (k : Key) :
      FLReachable m → FLReachable (m.update k)
  | dims (m : FileListModel) (w h : Int) :
      FLReachable m → FLReachable (m.SetDimensions w h)

/- ## Shared lemmas -/

/-- handleFileSelection never touches the file-list component. -/
theorem handleFileSelection_fileList (env : Env) (m : Model) (sel : Option FileInfo) :
    (Model.handleFileSelection env m sel).1.fileListModel = m.fileListModel := by
  unfold Model.handleFileSelection
  rcases sel with _ | s
  · rfl
  · dsimp only
    repeat' split
    all_goals rfl

/-- handleFileSelection never changes the search-mode fields, the directory,
or the stored file lists. -/
theorem handleFileSelection_frame (env : Env) (m : Model) (sel : Option FileInfo) :
    (Model.handleFileSelection env m sel).1.currentDir = m.currentDir ∧
    (Model.handleFileSelection env m sel).1.selectedPath = m.selectedPath ∧
    (Model.handleFileSelection env m sel).1.allFiles = m.allFiles ∧
    (Model.handleFileSelection env m sel).1.searchMode = m.searchMode := by
  unfold Model.handleFileSelection
  rcases sel with _ | s
  · exact ⟨rfl, rfl, rfl, rfl⟩
  · dsimp only
    repeat' split
    all_goals exact ⟨rfl, rfl, rfl, rfl⟩

/-- The cursor set by cursorTo. -/
theorem cursorTo_cursor (m : FileListModel) (c : Int) :
    (m.cursorTo c).cursor = c := by
  unfold FileListModel.cursorTo
  dsimp only
  split
  all_goals rfl

/-- cursorTo keeps the file list. -/
theorem cursorTo_files (m : FileListModel) (c : Int) :
    (m.cursorTo c).files = m.files := by
  unfold FileListModel.cursorTo
  dsimp only
  split
  all_goals rfl

/-- The file-list key dispatch keeps the file list. -/
theorem flUpdate_files (m : FileListModel) (k : Key) :
    (m.update k).files = m.files := by
  unfold FileListModel.update
  dsimp only
  repeat' split
  all_goals simp [cursorTo_files]

/- ## C1: stale-result discarding -/

/-- C1.  Stale-result discarding: a SummaryMsg is applied (via SetSummary)
exactly when its selectedPath tag equals the current selectedPath, and a
DirectoryPreviewMsg is applied (SetSummary nil then SetContent) exactly when
its directory name equals the path of the currently selected entry; in every
non-matching case the whole model is returned unchanged with no command. -/
theorem C1_stale_result_discarding (env : Env) (m : Model) (s : SummaryMsg)
    (d content : String) :
    (s.selectedPath = m.selectedPath →
      Model.update env m (.summaryMsg s) =
        ({ m with summaryModel := m.summaryModel.SetSummary env (some s.summary) }, [])) ∧
    (s.selectedPath ≠ m.selectedPath →
      Model.update env m (.summaryMsg s) = (m, [])) ∧
    (∀ sel, m.fileListModel.getSelectedFile = some sel → sel.Path = d →
      Model.update env m (.dirPreview d content) =
        ({ m with summaryModel :=
            (m.summaryModel.SetSummary env none).SetContent content }, [])) ∧
    ((∀ sel, m.fileListModel.getSelectedFile = some sel → sel.Path ≠ d) →
      Model.update env m (.dirPreview d content) = (m, [])) := by
  refine ⟨?_, ?_, ?_, ?_⟩
  · intro h
    simp [Model.update, h]
  · intro h
    simp [Model.update, h]
  · intro sel hsel hpath
    simp [Model.update, hsel, hpath]
  · intro h
    unfold Model.update
    cases hsel : m.fileListModel.getSelectedFile with
    | none => rfl
    | some sel => simp [h sel hsel]

/-- Witness for C1 at a concrete model: a matching summary result is applied,
a non-matching one is dropped. -/
theorem C1_witness :
    Model.update envT mC8 (.summaryMsg { summary := {}, path := "f11", selectedPath := "f11" }) =
      ({ mC8 with summaryModel := mC8.summaryModel.SetSummary envT (some {}) }, []) ∧
    Model.update envT mC8 (.summaryMsg { summary := {}, path := "old", selectedPath := "old" }) =
      (mC8, []) := by
  exact ⟨(C1_stale_result_discarding envT mC8 _ "" "").1 rfl,
         (C1_stale_result_discarding envT mC8 _ "" "").2.1 (by decide)⟩

/- ## C7: directory-listing failure degradation -/

/-- C7.  ListDirectory fails exactly when reading the directory itself
fails, and loadFilesCmd degrades that failure to an empty entries list in
the LoadFilesMsg it always delivers (runLoadFilesCmd is a total function
into a message, so the event loop keeps running). -/
theorem C7_listing_failure_degradation (goos basePath dirPath : String)
    (readDir : String → Except String (List DirEntry)) :
    (∀ e, readDir dirPath = .error e →
      ListDirectory goos basePath readDir dirPath = .error e ∧
      runLoadFilesCmd goos basePath readDir dirPath = []) ∧
    (∀ entries, readDir dirPath = .ok entries →
      ∃ files, ListDirectory goos basePath readDir dirPath = .ok files ∧
        runLoadFilesCmd goos basePath readDir dirPath = files) := by
  constructor
  · intro e he
    constructor
    · simp [ListDirectory, he]
    · simp [runLoadFilesCmd, ListDirectory, he]
  · intro entries he
    refine ⟨(if dirPath ≠ basePath then [parentInfo] else []) ++
      entries.filterMap (fun e =>
        if strStartsWith e.name "." then none
        else if e.isDir && skipDirs.contains e.name then none
        else some (mkChildInfo goos e)), ?_, ?_⟩
    · simp [ListDirectory, he]
    · simp [runLoadFilesCmd, ListDirectory, he]

/-- Witness for C7: a concrete failing directory read yields the error from
ListDirectory, and the command message carries the empty list; a concrete
successful read yields its files. -/
theorem C7_witness :
    ListDirectory "linux" "/b" (fun _ => .error "permission denied") "/b/x" =
      .error "permission denied" ∧
    runLoadFilesCmd "linux" "/b" (fun _ => .error "permission denied") "/b/x" = [] ∧
    runLoadFilesCmd "linux" "/b" (fun _ => .ok []) "/b/x" = [parentInfo] := by
  refine ⟨?_, ?_, ?_⟩
  · exact ((C7_listing_failure_degradation "linux" "/b" "/b/x" _).1 "permission denied" rfl).1
  · exact ((C7_listing_failure_degradation "linux" "/b" "/b/x" _).1 "permission denied" rfl).2
  · have h := (C7_listing_failure_degradation "linux" "/b" "/b/x" (fun _ => .ok [])).2 [] rfl
    rcases h with ⟨files, hls, hrun⟩
    rw [hrun]
    have hc : ListDirectory "linux" "/b" (fun _ => .ok ([] : List DirEntry)) "/b/x" =
        .ok [parentInfo] := rfl
    rw [hc] at hls
    injection hls with h2
    exact h2.symm

/- ## C2: directory listing contents -/

/-- The two-step skip test of the walker loop agrees with keepEntry. -/
theorem walkerFilter_eq_keep (goos : String) (e : DirEntry) :
    (if strStartsWith e.name "." then none
     else if e.isDir && skipDirs.contains e.name then none
     else some (mkChildInfo goos e)) =
    (if keepEntry e then some (mkChildInfo goos e) else none) := by
  unfold keepEntry
  cases h1 : strStartsWith e.name "." <;>
    cases h2 : (e.isDir && skipDirs.contains e.name) <;>
      simp [h1, h2]

/-- Length of a guarded filterMap equals the length of the filter. -/
theorem filterMap_guard_length {α β : Type} (p : α → Bool) (g : α → β) (l : List α) :
    (l.filterMap (fun e => if p e then some (g e) else none)).length =
      (l.filter p).length := by
  induction l with
  | nil => simp
  | cons a t ih =>
    by_cases h : p a <;> simp [h, ih]

/-- Members of a guarded filterMap come from kept members of the input. -/
theorem mem_filterMap_guard {α β : Type} {p : α → Bool} {g : α → β} {l : List α} {b : β}
    (hb : b ∈ l.filterMap (fun e => if p e then some (g e) else none)) :
    ∃ a ∈ l, p a = true ∧ b = g a := by
  rcases List.mem_filterMap.mp hb with ⟨a, ha, hfa⟩
  by_cases h : p a
  · refine ⟨a, ha, h, ?_⟩
    simp [h] at hfa
    exact hfa.symm
  · simp [h] at hfa

/-- C2.  Listing a directory whose read succeeds with children `entries`
returns: when the directory is not the configured base, one entry per child
passing the hidden/deny-list filter plus a leading parent entry
{Path := "..", IsDir := true}; when it is the base, exactly the filtered
children and no ".." entry; and every returned entry other than the
synthetic parent entry is a kept child (so no hidden name and no deny-listed
directory name ever appears). -/
theorem C2_directory_listing (goos basePath dirPath : String)
    (readDir : String → Except String (List DirEntry)) (entries : List DirEntry)
    (h : readDir dirPath = .ok entries) :
    ∃ files, ListDirectory goos basePath readDir dirPath = .ok files ∧
      (dirPath ≠ basePath →
        files.length = (entries.filter keepEntry).length + 1 ∧
        files.head? = some parentInfo) ∧
      (dirPath = basePath →
        files.length = (entries.filter keepEntry).length ∧
        ∀ f ∈ files, f.Path ≠ "..") ∧
      (∀ f ∈ files, f = parentInfo ∨
        ∃ e ∈ entries, keepEntry e = true ∧ f = mkChildInfo goos e) := by
  have hbody : entries.filterMap (fun e =>
      if strStartsWith e.name "." then none
      else if e.isDir && skipDirs.contains e.name then none
      else some (mkChildInfo goos e)) =
    entries.filterMap (fun e => if keepEntry e then some (mkChildInfo goos e) else none) := by
    apply List.filterMap_congr
    intro e _
    exact walkerFilter_eq_keep goos e
  have hmem : ∀ f ∈ entries.filterMap
      (fun e => if keepEntry e then some (mkChildInfo goos e) else none),
      ∃ e ∈ entries, keepEntry e = true ∧ f = mkChildInfo goos e := by
    intro f hf
    exact mem_filterMap_guard hf
  have hnodots : ∀ f ∈ entries.filterMap
      (fun e => if keepEntry e then some (mkChildInfo goos e) else none), f.Path ≠ ".." := by
    intro f hf hp
    rcases hmem f hf with ⟨e, _, hke, hfe⟩
    subst hfe
    unfold keepEntry at hke
    simp only [Bool.and_eq_true, Bool.not_eq_true'] at hke
    have hname : e.name = ".." := hp
    rw [hname] at hke
    exact absurd hke.1 (by decide)
  have hlen := filterMap_guard_length keepEntry (mkChildInfo goos) entries
  have hls : ListDirectory goos basePath readDir dirPath =
      .ok ((if dirPath ≠ basePath then [parentInfo] else []) ++
        entries.filterMap (fun e => if keepEntry e then some (mkChildInfo goos e) else none)) := by
    unfold ListDirectory
    rw [h]
    dsimp only
    rw [hbody]
  by_cases hd : dirPath = basePath
  · refine ⟨entries.filterMap
        (fun e => if keepEntry e then some (mkChildInfo goos e) else none), ?_, ?_, ?_, ?_⟩
    · rw [hls]
      simp [hd]
    · intro hne
      exact absurd hd hne
    · intro _
      exact ⟨hlen, hnodots⟩
    · intro f hf
      exact Or.inr (hmem f hf)
  · refine ⟨parentInfo :: entries.filterMap
        (fun e => if keepEntry e then some (mkChildInfo goos e) else none), ?_, ?_, ?_, ?_⟩
    · rw [hls]
      simp [hd]
    · intro _
      constructor
      · simp [hlen]
      · rfl
    · intro he
      exact absurd he hd
    · intro f hf
      rcases List.mem_cons.mp hf with hp | hrest
      · exact Or.inl hp
      · exact Or.inr (hmem f hrest)

/-- Witness for C2 on a concrete non-base directory with four children (one
hidden, one deny-listed directory, two kept): three entries, the parent
entry first. -/
theorem C2_witness :
    ∃ files, ListDirectory "linux" "/b"
        (fun _ => .ok [⟨".hid", false⟩, ⟨"node_modules", true⟩, ⟨"a.go", false⟩, ⟨"sub", true⟩])
        "/b/x" = .ok files ∧
      files.length = 3 ∧ files.head? = some parentInfo := by
  have h := C2_directory_listing "linux" "/b" "/b/x"
    (fun _ => .ok [⟨".hid", false⟩, ⟨"node_modules", true⟩, ⟨"a.go", false⟩, ⟨"sub", true⟩])
    [⟨".hid", false⟩, ⟨"node_modules", true⟩, ⟨"a.go", false⟩, ⟨"sub", true⟩] rfl
  rcases h with ⟨files, hls, hne, _, _⟩
  have hcount := hne (by decide)
  refine ⟨files, hls, ?_, hcount.2⟩
  rw [hcount.1]
  decide

/- ## C3: executable classification -/

/-- Counterexample for C3.  On a POSIX-like platform the code classifies a
file as executable from the permission bits alone: the extensionless file
named tool (mode 755 in the environment) is classified executable even
though its extension is not one of the Windows executable extensions, so
POSIX classification does not additionally require a listed extension. -/
theorem C3_counterexample :
    IsExecutableFile envT "tool" = true ∧
    envT.goos ≠ "windows" ∧
    winExeExts.contains (lowerStr (pathExt envT.goos "tool")) = false := by
  refine ⟨?_, ?_, ?_⟩
  · decide
  · decide
  · decide

/-- C3 amended.  On Windows-like platforms IsExecutableFile is true exactly
when the lower-cased extension is one of .exe .com .bat .cmd .ps1 .msi; on
POSIX-like platforms the extension is not consulted at all: the result is
true exactly when stat succeeds and some execute permission bit is set (so
a stat failure or absent execute bit yields not-executable). -/
theorem C3_executable_classification (env : Env) (path : String) :
    (env.goos = "windows" →
      (IsExecutableFile env path = true ↔
        winExeExts.contains (lowerStr (pathExt env.goos path)) = true)) ∧
    (env.goos ≠ "windows" →
      (IsExecutableFile env path = true ↔
        ∃ mode, env.stat path = some mode ∧ mode &&& 0o111 ≠ 0)) := by
  constructor
  · intro h
    unfold IsExecutableFile
    rw [if_pos h]
  · intro h
    unfold IsExecutableFile
    rw [if_neg h]
    cases hs : env.stat path with
    | none =>
      simp [hs]
    | some mode =>
      simp [hs]

/-- Witness for C3 amended: the Windows direction classifies setup.MSI as
executable by extension; the POSIX direction classifies tool by its mode. -/
theorem C3_witness :
    IsExecutableFile { envT with goos := "windows" } "setup.MSI" = true ∧
    IsExecutableFile envT "tool" = true ∧
    IsExecutableFile envT "noexec" = false := by
  refine ⟨?_, ?_, ?_⟩
  · exact ((C3_executable_classification { envT with goos := "windows" } "setup.MSI").1
      rfl).mpr (by decide)
  · exact ((C3_executable_classification envT "tool").2 (by decide)).mpr
      ⟨0o755, by decide, by decide⟩
  · have h := (C3_executable_classification envT "noexec").2 (by decide)
    cases hr : IsExecutableFile envT "noexec" with
    | false => rfl
    | true =>
      rcases h.mp hr with ⟨mode, hm, _⟩
      have hn : envT.stat "noexec" = none := rfl
      rw [hn] at hm
      cases hm

/- ## C6: scroll-window invariant -/

/-- The maximal scroll position is never negative. -/
theorem maxScroll_nonneg (m : SummaryModel) : 0 ≤ m.maxScroll := by
  unfold SummaryModel.maxScroll
  split
  · rename_i h
    omega
  · omega

/-- maxScroll ignores the scroll position itself. -/
theorem maxScroll_scrollPos_update (m : SummaryModel) (p : Int) :
    SummaryModel.maxScroll { m with scrollPos := p } = m.maxScroll := by
  unfold SummaryModel.maxScroll SummaryModel.totalLines SummaryModel.availHeight
  rfl

/-- Counterexample for C6.  Starting from a freshly constructed pane sized
to one visible line with three lines of content scrolled to position 2
(reachable by SetDimensions, SetContent, Scroll alone): SetLoading true
replaces the content with the one-line loading text without re-clamping, and
SetDimensions to a tall pane shrinks the bound without re-clamping; in both
resulting states scrollPos = 2 exceeds maxScroll = 0, so the invariant does
not hold after every view-affecting mutation. -/
theorem C6_counterexample :
    ¬ scrollInRange (mC6base.SetLoading true) ∧
    ¬ scrollInRange (mC6base.SetDimensions 20 100) ∧
    (mC6base.SetLoading true).scrollPos = 2 ∧
    (mC6base.SetLoading true).maxScroll = 0 := by
  refine ⟨?_, ?_, by decide, by decide⟩
  · intro h
    rcases h with ⟨_, h2⟩
    revert h2
    decide
  · intro h
    rcases h with ⟨_, h2⟩
    revert h2
    decide

/-- C6 amended.  After Scroll, SetSummary or SetContent the scroll position
always lies in [0, max(0, totalLines - viewportHeight)] (SetSummary and
SetContent reset it to 0; Scroll clamps into the interval); SetLoading and
SetDimensions do not re-clamp and can leave the position above the bound,
as the counterexample shows. -/
theorem C6_scroll_window_invariant (env : Env) (m : SummaryModel) (delta : Int)
    (s : Option FileSummary) (c : String) :
    scrollInRange (m.Scroll delta) ∧
    scrollInRange (SummaryModel.SetSummary env m s) ∧
    scrollInRange (m.SetContent c) := by
  refine ⟨?_, ?_, ?_⟩
  · have hn := maxScroll_nonneg m
    unfold SummaryModel.Scroll scrollInRange
    dsimp only
    refine ⟨?_, ?_⟩ <;>
      (repeat' split) <;> (try simp only [maxScroll_scrollPos_update]) <;> omega
  · unfold SummaryModel.SetSummary scrollInRange
    cases s with
    | none =>
      dsimp only
      exact ⟨le_refl 0, maxScroll_nonneg _⟩
    | some v =>
      dsimp only
      exact ⟨le_refl 0, maxScroll_nonneg _⟩
  · unfold SummaryModel.SetContent scrollInRange
    exact ⟨le_refl 0, maxScroll_nonneg _⟩

/- ## C5: filtered entries versus the unfiltered list -/

/-- Counterexample for C5.  With files abc, bc (in that order) and query bc,
a relevance ranker that puts the exact match first (as the spec describes
and as the external fuzzy library scores) makes fuzzyFilter return bc, abc:
the two filtered entries occur in the opposite of their order in the
unfiltered list, so filteredEntries is not an order-preserving subsequence
of allEntries. -/
theorem C5_counterexample :
    Model.fuzzyFilter envT [fAbc, fBc] "bc" = [fBc, fAbc] ∧
    ¬ List.Sublist (Model.fuzzyFilter envT [fAbc, fBc] "bc") [fAbc, fBc] := by
  constructor
  · decide
  · intro h
    have hv : Model.fuzzyFilter envT [fAbc, fBc] "bc" = [fBc, fAbc] := by decide
    rw [hv] at h
    have heq := h.eq_of_length (by decide)
    have hne : ([fBc, fAbc] : List FileInfo) ≠ [fAbc, fBc] := by decide
    exact hne heq

/-- Mapping the path list of a duplicate-free file list back through find?
recovers the file list itself. -/
theorem filterMap_find_map_path (files : List FileInfo)
    (hnd : (files.map (fun f => f.Path)).Nodup) :
    (files.map (fun f => f.Path)).filterMap
      (fun s => files.find? (fun f => f.Path == s)) = files := by
  induction files with
  | nil => rfl
  | cons f fs ih =>
    rw [List.map_cons, List.nodup_cons] at hnd
    rcases hnd with ⟨hnotin, hnd'⟩
    rw [List.map_cons, List.filterMap_cons]
    have hfind : (f :: fs).find? (fun g => g.Path == f.Path) = some f := by
      rw [List.find?_cons_of_pos]
      simp
    rw [hfind]
    have hcongr : (fs.map (fun f => f.Path)).filterMap
        (fun s => (f :: fs).find? (fun g => g.Path == s)) =
      (fs.map (fun f => f.Path)).filterMap
        (fun s => fs.find? (fun g => g.Path == s)) := by
      apply List.filterMap_congr
      intro s hs
      have hne : f.Path ≠ s := by
        intro hcontra
        exact hnotin (hcontra ▸ hs)
      rw [List.find?_cons_of_neg]
      simp [hne]
    rw [hcongr, ih hnd']

/-- C5 amended.  Every filtered entry occurs in the unfiltered list, for any
behavior of the external ranker; the empty query returns the list unchanged;
and whenever the ranker output is itself an order-preserving subsequence of
the path list (and paths are duplicate-free), the filtered list is an
order-preserving subsequence of the unfiltered list.  In general the order
of filteredEntries follows the ranker's relevance order, which need not
preserve the original order (see the counterexample). -/
theorem C5_filtered_subset (env : Env) (files : List FileInfo) (query : String) :
    (∀ f ∈ Model.fuzzyFilter env files query, f ∈ files) ∧
    (query = "" → Model.fuzzyFilter env files query = files) ∧
    (query ≠ "" → (files.map (fun f => f.Path)).Nodup →
      List.Sublist (env.ranker query (files.map (fun f => f.Path)))
        (files.map (fun f => f.Path)) →
      List.Sublist (Model.fuzzyFilter env files query) files) := by
  refine ⟨?_, ?_, ?_⟩
  · intro f hf
    unfold Model.fuzzyFilter at hf
    by_cases hq : query = ""
    · rw [if_pos hq] at hf
      exact hf
    · rw [if_neg hq] at hf
      dsimp only at hf
      rcases List.mem_filterMap.mp hf with ⟨s, _, hfind⟩
      exact List.mem_of_find?_eq_some hfind
  · intro hq
    unfold Model.fuzzyFilter
    rw [if_pos hq]
  · intro hq hnd hsub
    unfold Model.fuzzyFilter
    rw [if_neg hq]
    dsimp only
    have hstep := hsub.filterMap (fun s => files.find? (fun f => f.Path == s))
    rw [filterMap_find_map_path files hnd] at hstep
    exact hstep

/-- Witness for C5 amended at concrete inputs: the entry bc produced by the
filter occurs in the unfiltered list, and with the concrete ranker on the
empty query (whose match list preserves the original order) the filtered
list is an order-preserving subsequence. -/
theorem C5_witness :
    fBc ∈ [fAbc, fBc] ∧
    List.Sublist (Model.fuzzyFilter envT [fAbc, fBc] "b") [fAbc, fBc] := by
  constructor
  · exact (C5_filtered_subset envT [fAbc, fBc] "bc").1 fBc (by decide)
  · exact (C5_filtered_subset envT [fAbc, fBc] "b").2.2 (by decide) (by decide) (by decide)

/- ## C4: search-mode state machine -/

/-- A non-empty string has positive length. -/
theorem strLength_pos_of_ne {s : String} (h : s ≠ "") : 0 < s.length := by
  cases s with
  | mk l =>
    cases l with
    | nil => exact absurd rfl h
    | cons c cs => simp [String.length]

/-- C4.  In search mode: Escape returns to browsing, clears the query and
redisplays allFiles; Enter returns to browsing keeping the displayed
filtered set; Backspace on a non-empty query drops its last character and
re-filters, redisplaying the unfiltered allFiles when the query becomes
empty; a printable ASCII character key appends to the query and
synchronously replaces filteredFiles with the fuzzy-filter result.  No
command is ever issued. -/
theorem C4_search_state_machine (env : Env) (m : Model) (c : Char)
    (hm : m.searchMode = true) :
    (Model.update env m (.key .escape) =
      ({ m with searchMode := false, searchQuery := "",
                fileListModel := m.fileListModel.SetFiles m.allFiles }, [])) ∧
    (Model.update env m (.key .enter) = ({ m with searchMode := false }, [])) ∧
    (m.searchQuery ≠ "" →
      Model.update env m (.key .backspace) =
        (if m.searchQuery.dropRight 1 = "" then
          ({ m with searchQuery := m.searchQuery.dropRight 1,
                    filteredFiles := m.allFiles,
                    fileListModel := m.fileListModel.SetFiles m.allFiles }, [])
        else
          ({ m with searchQuery := m.searchQuery.dropRight 1,
                    filteredFiles := Model.fuzzyFilter env m.allFiles (m.searchQuery.dropRight 1),
                    fileListModel := m.fileListModel.SetFiles
                      (Model.fuzzyFilter env m.allFiles (m.searchQuery.dropRight 1)) }, []))) ∧
    (goPrintable (Key.char c).str = true →
      Model.update env m (.key (.char c)) =
        ({ m with searchQuery := m.searchQuery ++ (Key.char c).str,
                  filteredFiles := Model.fuzzyFilter env m.allFiles
                    (m.searchQuery ++ (Key.char c).str),
                  fileListModel := m.fileListModel.SetFiles
                    (Model.fuzzyFilter env m.allFiles (m.searchQuery ++ (Key.char c).str)) }, [])) := by
  refine ⟨?_, ?_, ?_, ?_⟩
  · simp [Model.update, hm, Model.searchKey]
  · simp [Model.update, hm, Model.searchKey]
  · intro hq
    have hlen : m.searchQuery.length > 0 := strLength_pos_of_ne hq
    simp only [Model.update, hm, if_true, Model.searchKey, hlen]
  · intro hp
    simp [Model.update, hm, Model.searchKey, hp]

/-- Witness for C4 at a concrete search-mode model: Escape restores the full
list and clears the query; the printable key x extends the query. -/
theorem C4_witness :
    Model.update envT mSearch (.key .escape) =
      ({ mSearch with searchMode := false, searchQuery := "",
                      fileListModel := mSearch.fileListModel.SetFiles mSearch.allFiles }, []) ∧
    Model.update envT mSearch (.key (.char 'x')) =
      ({ mSearch with searchQuery := "abx",
                      filteredFiles := Model.fuzzyFilter envT mSearch.allFiles "abx",
                      fileListModel := mSearch.fileListModel.SetFiles
                        (Model.fuzzyFilter envT mSearch.allFiles "abx") }, []) := by
  constructor
  · exact (C4_search_state_machine envT mSearch 'x' rfl).1
  · have h := (C4_search_state_machine envT mSearch 'x' rfl).2.2.2 (by decide)
    exact h

/- ## C10: search-mode confinement -/

/-- C10.  While search mode is on, no key event changes the current
directory, the recorded selection, the stored full list, the summary pane,
the base path or the window dimensions, and no command at all is issued (so
no directory load, no summarization and no quit - in particular q appends to
the query and ctrl+c is ignored); the only state a key can touch is
searchMode, searchQuery, filteredFiles and the displayed file-list
component. -/
theorem C10_search_confinement (env : Env) (m : Model) (k : Key)
    (hm : m.searchMode = true) :
    (Model.update env m (.key k)).1.currentDir = m.currentDir ∧
    (Model.update env m (.key k)).1.selectedPath = m.selectedPath ∧
    (Model.update env m (.key k)).1.allFiles = m.allFiles ∧
    (Model.update env m (.key k)).1.summaryModel = m.summaryModel ∧
    (Model.update env m (.key k)).1.basePath = m.basePath ∧
    (Model.update env m (.key k)).1.width = m.width ∧
    (Model.update env m (.key k)).1.height = m.height ∧
    (Model.update env m (.key k)).2 = [] := by
  have hred : Model.update env m (.key k) = Model.searchKey env m k := by
    simp [Model.update, hm]
  rw [hred]
  cases k with
  | escape => exact ⟨rfl, rfl, rfl, rfl, rfl, rfl, rfl, rfl⟩
  | enter => exact ⟨rfl, rfl, rfl, rfl, rfl, rfl, rfl, rfl⟩
  | backspace =>
    unfold Model.searchKey
    dsimp only
    repeat' split
    all_goals exact ⟨rfl, rfl, rfl, rfl, rfl, rfl, rfl, rfl⟩
  | up =>
    unfold Model.searchKey
    dsimp only
    split
    all_goals exact ⟨rfl, rfl, rfl, rfl, rfl, rfl, rfl, rfl⟩
  | down =>
    unfold Model.searchKey
    dsimp only
    split
    all_goals exact ⟨rfl, rfl, rfl, rfl, rfl, rfl, rfl, rfl⟩
  | home =>
    unfold Model.searchKey
    dsimp only
    split
    all_goals exact ⟨rfl, rfl, rfl, rfl, rfl, rfl, rfl, rfl⟩
  | keyEnd =>
    unfold Model.searchKey
    dsimp only
    split
    all_goals exact ⟨rfl, rfl, rfl, rfl, rfl, rfl, rfl, rfl⟩
  | pgup =>
    unfold Model.searchKey
    dsimp only
    split
    all_goals exact ⟨rfl, rfl, rfl, rfl, rfl, rfl, rfl, rfl⟩
  | pgdown =>
    unfold Model.searchKey
    dsimp only
    split
    all_goals exact ⟨rfl, rfl, rfl, rfl, rfl, rfl, rfl, rfl⟩
  | tab =>
    unfold Model.searchKey
    dsimp only
    split
    all_goals exact ⟨rfl, rfl, rfl, rfl, rfl, rfl, rfl, rfl⟩
  | ctrlC =>
    unfold Model.searchKey
    dsimp only
    split
    all_goals exact ⟨rfl, rfl, rfl, rfl, rfl, rfl, rfl, rfl⟩
  | char c =>
    unfold Model.searchKey
    dsimp only
    split
    all_goals exact ⟨rfl, rfl, rfl, rfl, rfl, rfl, rfl, rfl⟩

/-- Witness for C10: in the concrete search-mode model, both the would-be
quit keys q and ctrl+c leave the directory unchanged and issue no command. -/
theorem C10_witness :
    (Model.update envT mSearch (.key (.char 'q'))).1.currentDir = mSearch.currentDir ∧
    (Model.update envT mSearch (.key (.char 'q'))).2 = [] ∧
    (Model.update envT mSearch (.key .ctrlC)).2 = [] := by
  exact ⟨(C10_search_confinement envT mSearch (.char 'q') rfl).1,
         (C10_search_confinement envT mSearch (.char 'q') rfl).2.2.2.2.2.2.2,
         (C10_search_confinement envT mSearch .ctrlC rfl).2.2.2.2.2.2.2⟩

/- ## C8: browsing-mode cursor movement -/

/-- Counterexample for C8.  In a browsing-mode model with twelve entries and
the cursor on index 11, the PageUp key does not move the cursor at all
(main intercepts the key string pgup to scroll the summary pane; the
file-list component's own pageup handler matches the string "pageup",
which the runtime never produces): the cursor stays at 11 instead of
moving to the claimed clamp(11 - 10) = 1, and the summary pane is scrolled
instead. -/
theorem C8_counterexample :
    (Model.update envT mC8 (.key .pgup)).1.fileListModel.cursor = 11 ∧
    (11 : Int) ≠ max 0 (11 - 10) ∧
    (Model.update envT mC8 (.key .pgup)).1.summaryModel =
      mC8.summaryModel.Scroll (-5) := by
  refine ⟨by decide, by decide, ?_⟩
  rfl

/-- A browsing-mode key that is none of the intercepted strings is forwarded
to the file-list component (the selection-change protocol that follows never
touches the file-list component). -/
theorem update_default_fileList (env : Env) (m : Model) (k : Key)
    (hs : m.searchMode = false)
    (h1 : k.str ≠ "ctrl+c") (h2 : k.str ≠ "q") (h3 : k.str ≠ "/") (h4 : k.str ≠ "r")
    (h5 : k.str ≠ "pgup") (h6 : k.str ≠ "pgdown") (h7 : k.str ≠ "enter") :
    (Model.update env m (.key k)).1.fileListModel = m.fileListModel.update k := by
  have hred : Model.update env m (.key k) = Model.browseKey env m k := by
    simp [Model.update, hs]
  rw [hred]
  unfold Model.browseKey
  simp only [h1, h2, h3, h4, h5, h6, h7, or_self, or_false, false_or,
    if_false, ite_false, if_neg, not_false_iff]
  split
  · split
    · rw [handleFileSelection_fileList]
    · rfl
  · rfl

/-- PageUp in browsing mode scrolls the summary pane up five lines and
changes nothing else. -/
theorem update_pgup (env : Env) (m : Model) (hs : m.searchMode = false) :
    Model.update env m (.key .pgup) =
      ({ m with summaryModel := m.summaryModel.Scroll (-5) }, []) := by
  simp [Model.update, hs, Model.browseKey, Key.str]

/-- PageDown in browsing mode scrolls the summary pane down five lines and
changes nothing else. -/
theorem update_pgdown (env : Env) (m : Model) (hs : m.searchMode = false) :
    Model.update env m (.key .pgdown) =
      ({ m with summaryModel := m.summaryModel.Scroll 5 }, []) := by
  simp [Model.update, hs, Model.browseKey, Key.str]

/-- Cursor after the up key in the file-list component. -/
theorem flUpdate_cursor_up (m : FileListModel) :
    (m.update .up).cursor = max 0 (m.cursor - 1) := by
  unfold FileListModel.update
  simp [Key.str, cursorTo_cursor]

/-- Cursor after the vim key k in the file-list component. -/
theorem flUpdate_cursor_k (m : FileListModel) :
    (m.update (.char 'k')).cursor = max 0 (m.cursor - 1) := by
  unfold FileListModel.update
  have hstr : (Key.char 'k').str = "k" := rfl
  rw [hstr]
  simp [cursorTo_cursor]

/-- Cursor after the down key in the file-list component. -/
theorem flUpdate_cursor_down (m : FileListModel) :
    (m.update .down).cursor = min ((m.files.length : Int) - 1) (m.cursor + 1) := by
  unfold FileListModel.update
  simp [Key.str, cursorTo_cursor]

/-- Cursor after the vim key j in the file-list component. -/
theorem flUpdate_cursor_j (m : FileListModel) :
    (m.update (.char 'j')).cursor = min ((m.files.length : Int) - 1) (m.cursor + 1) := by
  unfold FileListModel.update
  have hstr : (Key.char 'j').str = "j" := rfl
  rw [hstr]
  simp [cursorTo_cursor]

/-- Cursor after the Home key in the file-list component. -/
theorem flUpdate_cursor_home (m : FileListModel) :
    (m.update .home).cursor = 0 := by
  unfold FileListModel.update
  simp [Key.str, cursorTo_cursor]

/-- Cursor after the End key in the file-list component. -/
theorem flUpdate_cursor_end (m : FileListModel) :
    (m.update .keyEnd).cursor = (m.files.length : Int) - 1 := by
  unfold FileListModel.update
  simp [Key.str, cursorTo_cursor]

/-- C8 amended.  In browsing mode with a non-empty displayed list and an
in-range cursor: the arrow/vim keys move the cursor by one and Home/End
jump to the first/last entry, always staying clamped inside [0, len-1];
the PageUp/PageDown keys do NOT move the cursor - the application
intercepts the key strings pgup/pgdown and scrolls the summary pane by
five lines instead (the file-list component's own plus/minus-10 handlers
listen for the strings pageup/pagedown, which the runtime never
delivers). -/
theorem C8_cursor_movement (env : Env) (m : Model)
    (hs : m.searchMode = false)
    (hne : m.fileListModel.files ≠ [])
    (hc0 : 0 ≤ m.fileListModel.cursor)
    (hclen : m.fileListModel.cursor < (m.fileListModel.files.length : Int)) :
    ((Model.update env m (.key .up)).1.fileListModel.cursor =
        max 0 (m.fileListModel.cursor - 1) ∧
     (Model.update env m (.key (.char 'k'))).1.fileListModel.cursor =
        max 0 (m.fileListModel.cursor - 1) ∧
     0 ≤ max 0 (m.fileListModel.cursor - 1) ∧
     max 0 (m.fileListModel.cursor - 1) ≤ (m.fileListModel.files.length : Int) - 1) ∧
    ((Model.update env m (.key .down)).1.fileListModel.cursor =
        min ((m.fileListModel.files.length : Int) - 1) (m.fileListModel.cursor + 1) ∧
     (Model.update env m (.key (.char 'j'))).1.fileListModel.cursor =
        min ((m.fileListModel.files.length : Int) - 1) (m.fileListModel.cursor + 1) ∧
     0 ≤ min ((m.fileListModel.files.length : Int) - 1) (m.fileListModel.cursor + 1) ∧
     min ((m.fileListModel.files.length : Int) - 1) (m.fileListModel.cursor + 1) ≤
        (m.fileListModel.files.length : Int) - 1) ∧
    ((Model.update env m (.key .home)).1.fileListModel.cursor = 0 ∧
     (Model.update env m (.key .keyEnd)).1.fileListModel.cursor =
        (m.fileListModel.files.length : Int) - 1) ∧
    (Model.update env m (.key .pgup) =
        ({ m with summaryModel := m.summaryModel.Scroll (-5) }, []) ∧
     Model.update env m (.key .pgdown) =
        ({ m with summaryModel := m.summaryModel.Scroll 5 }, [])) := by
  have hlen1 : 1 ≤ (m.fileListModel.files.length : Int) := by
    have := List.length_pos.mpr hne
    omega
  refine ⟨⟨?_, ?_, ?_, ?_⟩, ⟨?_, ?_, ?_, ?_⟩, ⟨?_, ?_⟩, ?_, ?_⟩
  · rw [update_default_fileList env m .up hs (by decide) (by decide) (by decide)
      (by decide) (by decide) (by decide) (by decide), flUpdate_cursor_up]
  · rw [update_default_fileList env m (.char 'k') hs (by decide) (by decide) (by decide)
      (by decide) (by decide) (by decide) (by decide), flUpdate_cursor_k]
  · omega
  · rw [Int.max_def]
    split <;> omega
  · rw [update_default_fileList env m .down hs (by decide) (by decide) (by decide)
      (by decide) (by decide) (by decide) (by decide), flUpdate_cursor_down]
  · rw [update_default_fileList env m (.char 'j') hs (by decide) (by decide) (by decide)
      (by decide) (by decide) (by decide) (by decide), flUpdate_cursor_j]
  · rw [Int.min_def]
    split <;> omega
  · rw [Int.min_def]
    split <;> omega
  · rw [update_default_fileList env m .home hs (by decide) (by decide) (by decide)
      (by decide) (by decide) (by decide) (by decide), flUpdate_cursor_home]
  · rw [update_default_fileList env m .keyEnd hs (by decide) (by decide) (by decide)
      (by decide) (by decide) (by decide) (by decide), flUpdate_cursor_end]
  · exact update_pgup env m hs
  · exact update_pgdown env m hs

/-- Witness for C8 amended at the concrete browsing model (cursor 11 of 12):
up moves to 10, down clamps at 11, End stays at 11. -/
theorem C8_witness :
    (Model.update envT mC8 (.key .up)).1.fileListModel.cursor = 10 ∧
    (Model.update envT mC8 (.key .down)).1.fileListModel.cursor = 11 ∧
    (Model.update envT mC8 (.key .keyEnd)).1.fileListModel.cursor = 11 := by
  have h := C8_cursor_movement envT mC8 rfl (by decide) (by decide) (by decide)
  refine ⟨?_, ?_, ?_⟩
  · rw [h.1.1]
    decide
  · rw [h.2.1.1]
    decide
  · rw [h.2.2.1.2]
    decide

/- ## C9: selection access totality -/

/-- SetFiles establishes the cursor bounds for any non-empty list,
whatever the prior cursor was. -/
theorem setFiles_cursor_bounds (m : FileListModel) (fs : List FileInfo)
    (hfs : fs ≠ []) :
    0 ≤ (m.SetFiles fs).cursor ∧
    (m.SetFiles fs).cursor < (fs.length : Int) ∧
    (m.SetFiles fs).files = fs := by
  have hlen : 0 < fs.length := List.length_pos.mpr hfs
  unfold FileListModel.SetFiles
  dsimp only
  refine ⟨?_, ?_, rfl⟩
  · split <;> split <;> omega
  · split
    · split
      all_goals rename_i h1 h2
      all_goals omega
    · split
      all_goals rename_i h1 h2
      all_goals omega

/-- The reachability invariant: every state the program can construct has
its cursor inside [0, len-1] whenever the file list is non-empty. -/
theorem flReachable_cursor_inv (m : FileListModel) (hr : FLReachable m) :
    m.files ≠ [] → 0 ≤ m.cursor ∧ m.cursor < (m.files.length : Int) := by
  induction hr with
  | init =>
    intro h
    exact absurd rfl h
  | setFiles m0 fs _ _ =>
    intro h
    have hb := setFiles_cursor_bounds m0 fs (by
      intro hfs
      rw [show (m0.SetFiles fs).files = fs from rfl, hfs] at h
      exact h rfl)
    exact ⟨hb.1, hb.2.1⟩
  | key m0 k _ ih =>
    intro h
    have hfiles : (m0.update k).files = m0.files := flUpdate_files m0 k
    rw [hfiles] at h
    have hb := ih h
    have hlen : 0 < m0.files.length := List.length_pos.mpr h
    rw [hfiles]
    unfold FileListModel.update
    dsimp only
    repeat' split
    all_goals try simp only [cursorTo_cursor]
    all_goals try rw [Int.max_def]
    all_goals try rw [Int.min_def]
    all_goals try split
    all_goals omega
  | dims m0 w hgt _ ih =>
    intro h
    exact ih h

/-- C9.  For every reachable file-list state, GetSelectedFile performs no
out-of-bounds access (the panic case of GetSelectedFileP never occurs): it
returns nil exactly when the list is empty or the cursor is at or past the
end, and for a reachable state with a non-empty list it returns the entry
at the cursor; and SetFiles re-clamps the cursor so that after it, for any
non-empty list, 0 <= cursor <= len-1 holds. -/
theorem C9_selection_total (m : FileListModel) (fs : List FileInfo)
    (hr : FLReachable m) (hfs : fs ≠ []) :
    m.GetSelectedFileP ≠ none ∧
    (m.GetSelectedFileP = some none ↔
      (m.files = [] ∨ (m.files.length : Int) ≤ m.cursor)) ∧
    (m.files ≠ [] →
      ∃ f, m.files.get? m.cursor.toNat = some f ∧ m.GetSelectedFileP = some (some f)) ∧
    (0 ≤ (m.SetFiles fs).cursor ∧ (m.SetFiles fs).cursor < (fs.length : Int) ∧
      (m.SetFiles fs).files = fs) := by
  have hinv := flReachable_cursor_inv m hr
  by_cases hemp : m.files = []
  · refine ⟨?_, ?_, ?_, setFiles_cursor_bounds m fs hfs⟩
    · unfold FileListModel.GetSelectedFileP
      rw [if_pos (Or.inl (by rw [hemp]; rfl))]
      intro hcontra
      cases hcontra
    · unfold FileListModel.GetSelectedFileP
      rw [if_pos (Or.inl (by rw [hemp]; rfl))]
      simp [hemp]
    · intro h
      exact absurd hemp h
  · have hb := hinv hemp
    have hguard : ¬ (m.files.length = 0 ∨ (m.files.length : Int) ≤ m.cursor) := by
      intro hcontra
      rcases hcontra with h1 | h2
      · exact hemp (List.length_eq_zero.mp h1)
      · omega
    have hgetlt : m.cursor.toNat < m.files.length := by omega
    have hget : ∃ f, m.files.get? m.cursor.toNat = some f := by
      rw [List.get?_eq_get hgetlt]
      exact ⟨_, rfl⟩
    rcases hget with ⟨f, hf⟩
    refine ⟨?_, ?_, ?_, setFiles_cursor_bounds m fs hfs⟩
    · unfold FileListModel.GetSelectedFileP
      rw [if_neg hguard, if_pos hb.1, hf]
      intro hcontra
      cases hcontra
    · unfold FileListModel.GetSelectedFileP
      rw [if_neg hguard, if_pos hb.1, hf]
      constructor
      · intro hcontra
        cases hcontra
      · intro hcontra
        rcases hcontra with h1 | h2
        · exact absurd h1 hemp
        · exact absurd h2 (by omega)
    · intro _
      refine ⟨f, hf, ?_⟩
      unfold FileListModel.GetSelectedFileP
      rw [if_neg hguard, if_pos hb.1, hf]
      rfl

/-- Witness for C9 at the reachable one-file state built by SetFiles from
the initial model. -/
theorem C9_witness :
    (NewFileListModel.SetFiles [fAbc]).GetSelectedFileP ≠ none ∧
    ((NewFileListModel.SetFiles [fAbc]).GetSelectedFileP = some (some fAbc)) := by
  have h := C9_selection_total (NewFileListModel.SetFiles [fAbc]) [fAbc]
    (FLReachable.setFiles NewFileListModel [fAbc] FLReachable.init) (by decide)
  refine ⟨h.1, ?_⟩
  rcases h.2.2.1 (by decide) with ⟨f, hf, hp⟩
  have : f = fAbc := by
    have : ([fAbc].get? 0) = some fAbc := rfl
    rw [show (NewFileListModel.SetFiles [fAbc]).files = [fAbc] from rfl] at hf
    rw [show (NewFileListModel.SetFiles [fAbc]).cursor.toNat = 0 from rfl] at hf
    rw [this] at hf
    injection hf with h2
    exact h2.symm
  rw [this] at hp
  exact hp
